import Mathlib

/-!
Verification development for the MySQL client core (`src/conn.rs`):
packet framer, packet parsers, the `Value` model and codec, the
connection state machine pieces (`write_packet`, `read_packet`,
`execute`, `send_long_data`, `send_local_infile`) and result-set
streaming (`QueryResult::next`, drain on drop).

Bytes are modelled as `Nat` (values < 256), byte sequences as
`List Nat`.  Stateful code is explicit state passing over a `MyConn`
record whose transport is a pair of byte lists (`in_stream` for inbound
bytes, `out_stream` for everything written).  Fallible code returns
`Except`.  The `io` and `consts` modules of the repository are not part
of the given sources; the definitions taken from them are modelled from
the specification and marked as such.
-/

namespace MySqlSimple

/-- Maximum physical payload of one frame, `2^24 - 1` (spec section 4.1). -/
def MAX_PAYLOAD_LEN : Nat := 2 ^ 24 - 1

/-- Command byte of `COM_QUERY` (spec section 4.4). -/
def COM_QUERY : Nat := 0x03
/-- Command byte of `COM_STMT_PREPARE` (spec section 4.4). -/
def COM_STMT_PREPARE : Nat := 0x16
/-- Command byte of `COM_STMT_EXECUTE` (spec section 4.4). -/
def COM_STMT_EXECUTE : Nat := 0x17
/-- Command byte of `COM_STMT_SEND_LONG_DATA` (spec section 4.4). -/
def COM_STMT_SEND_LONG_DATA : Nat := 0x18
/-- Modelled from the spec: `COM_FIELD_LIST` command byte of the `consts`
module (not under `src/`); standard protocol value. -/
def COM_FIELD_LIST : Nat := 0x04

/-- Modelled from the spec: column type byte `MYSQL_TYPE_VAR_STRING` from
the `consts` module (not under `src/`); standard protocol value (the spec
fixes the wire protocol as bit-exact MySQL protocol v10). -/
def MYSQL_TYPE_VAR_STRING : Nat := 0xfd
/-- Modelled from the spec: `MYSQL_TYPE_LONGLONG` (standard value). -/
def MYSQL_TYPE_LONGLONG : Nat := 0x08
/-- Modelled from the spec: `MYSQL_TYPE_DOUBLE` (standard value). -/
def MYSQL_TYPE_DOUBLE : Nat := 0x05
/-- Modelled from the spec: `MYSQL_TYPE_FLOAT` (standard value). -/
def MYSQL_TYPE_FLOAT : Nat := 0x04
/-- Modelled from the spec: `MYSQL_TYPE_DATE` (standard value). -/
def MYSQL_TYPE_DATE : Nat := 0x0a
/-- Modelled from the spec: `MYSQL_TYPE_DATETIME` (standard value). -/
def MYSQL_TYPE_DATETIME : Nat := 0x0c
/-- Modelled from the spec: `MYSQL_TYPE_TIMESTAMP` (standard value). -/
def MYSQL_TYPE_TIMESTAMP : Nat := 0x07
/-- Modelled from the spec: `MYSQL_TYPE_TIME` (standard value). -/
def MYSQL_TYPE_TIME : Nat := 0x0b
/-- Modelled from the spec: `MYSQL_TYPE_TINY` (standard value). -/
def MYSQL_TYPE_TINY : Nat := 0x01
/-- Modelled from the spec: `MYSQL_TYPE_SHORT` (standard value). -/
def MYSQL_TYPE_SHORT : Nat := 0x02
/-- Modelled from the spec: `MYSQL_TYPE_LONG` (standard value). -/
def MYSQL_TYPE_LONG : Nat := 0x03
/-- Modelled from the spec: the `UNSIGNED_FLAG` column flag bit from the
`consts` module (standard value 32). -/
def UNSIGNED_FLAG : Nat := 32

/-- Wrap-around size of the Rust `uint` (64-bit) arithmetic used by the
source; subtraction on `uint` wraps modulo `2^64`. -/
def U64_SIZE : Nat := 2 ^ 64

/-- Wrapping `uint` subtraction `a - b` (mod `2^64`), as performed by the
pre-1.0 Rust arithmetic of the source. -/
def wsub (a b : Nat) : Nat := (a % U64_SIZE + (U64_SIZE - b % U64_SIZE)) % U64_SIZE

/-! ## Byte-stream reading primitives

These model the `std::io` reader combinators the source uses over an
in-memory cursor: each takes the remaining byte list and returns the
parsed value together with the unread rest, or an error string for a
short read.  They correspond to component C1 of the spec. -/

/-- Read one byte. -/
def readU8 : List Nat → Except String (Nat × List Nat)
  | [] => .error "end of file"
  | b :: rest => .ok (b, rest)

/-- Read `n` bytes exactly (`read_exact` / `push_exact`). -/
def readExact (n : Nat) (s : List Nat) : Except String (List Nat × List Nat) :=
  if n ≤ s.length then .ok (s.take n, s.drop n) else .error "end of file"

/-- Skip `n` bytes (`seek(n, SeekCur)` inside a payload). -/
def skipBytes (n : Nat) (s : List Nat) : Except String (List Nat) :=
  if n ≤ s.length then .ok (s.drop n) else .error "seek past end"

/-- Little-endian value of a byte list (first byte least significant). -/
def leValue : List Nat → Nat
  | [] => 0
  | b :: rest => b % 256 + 256 * leValue rest

/-- Read an `n`-byte little-endian unsigned integer (`read_le_uint_n`). -/
def readLeUintN (n : Nat) (s : List Nat) : Except String (Nat × List Nat) :=
  match readExact n s with
  | .error e => .error e
  | .ok (bytes, rest) => .ok (leValue bytes, rest)

/-- Read a little-endian `u16` (`read_le_u16`). -/
def readLeU16 (s : List Nat) : Except String (Nat × List Nat) := readLeUintN 2 s

/-- Read a little-endian `u32` (`read_le_u32`). -/
def readLeU32 (s : List Nat) : Except String (Nat × List Nat) := readLeUintN 4 s

/-- Modelled from the spec: `read_lenenc_int` of the `io` module (not
under `src/`).  Length-encoded integer, four forms keyed by the first
byte: `< 0xFB` is the one-byte value; `0xFC` is followed by 2 bytes;
`0xFD` by 3 bytes; `0xFE` by 8 bytes (spec section 4.2).  The remaining
first bytes (`0xFB`, `0xFF`) are not a length-encoded integer. -/
def readLenencInt (s : List Nat) : Except String (Nat × List Nat) :=
  match readU8 s with
  | .error e => .error e
  | .ok (b, rest) =>
    if b < 0xfb then .ok (b, rest)
    else if b = 0xfc then readLeUintN 2 rest
    else if b = 0xfd then readLeUintN 3 rest
    else if b = 0xfe then readLeUintN 8 rest
    else .error "invalid length-encoded integer"

/-- Modelled from the spec: `read_lenenc_bytes` of the `io` module (not
under `src/`).  A length-encoded string is a length-encoded integer `N`
followed by `N` bytes (spec section 4.2). -/
def readLenencBytes (s : List Nat) : Except String (List Nat × List Nat) :=
  match readLenencInt s with
  | .error e => .error e
  | .ok (n, rest) => readExact n rest

/-- `n` as a little-endian list of `w` bytes (used for the fixed-width
`write_le_*` writers of the `io` module, modelled from the spec: all
integer fields are little-endian). -/
def leBytes (w n : Nat) : List Nat :=
  match w with
  | 0 => []
  | v + 1 => n % 256 :: leBytes v (n / 256)

/-- Modelled from the spec: `write_lenenc_bytes` of the `io` module (not
under `src/`): the length as a length-encoded integer, then the bytes. -/
def writeLenencBytes (x : List Nat) : List Nat :=
  (if x.length < 0xfb then [x.length]
   else if x.length < 2 ^ 16 then 0xfc :: leBytes 2 x.length
   else if x.length < 2 ^ 24 then 0xfd :: leBytes 3 x.length
   else 0xfe :: leBytes 8 x.length) ++ x

/-! ## Packet parsers (component C3) -/

/-- `OkPacket` (`src/conn.rs`). -/
structure OkPacket where
  affected_rows : Nat
  last_insert_id : Nat
  status_flags : Nat
  warnings : Nat
  info : List Nat
deriving DecidableEq, Repr

/-- `OkPacket::from_payload`: skip the `0x00` header byte, two
length-encoded integers, two `u16`, rest is `info`. -/
def OkPacket.from_payload (pld : List Nat) : Except String OkPacket := do
  let s ← skipBytes 1 pld
  let (affected_rows, s) ← readLenencInt s
  let (last_insert_id, s) ← readLenencInt s
  let (status_flags, s) ← readLeU16 s
  let (warnings, s) ← readLeU16 s
  .ok { affected_rows, last_insert_id, status_flags, warnings, info := s }

/-- `ErrPacket` (`src/conn.rs`). -/
structure ErrPacket where
  sql_state : List Nat
  error_message : List Nat
  error_code : Nat
deriving DecidableEq, Repr

/-- `ErrPacket::from_payload`: skip the `0xFF` byte, `u16` error code,
skip the `#` marker, 5 bytes of SQL state, rest is the message. -/
def ErrPacket.from_payload (pld : List Nat) : Except String ErrPacket := do
  let s ← skipBytes 1 pld
  let (error_code, s) ← readLeU16 s
  let s ← skipBytes 1 s
  let (sql_state, s) ← readExact 5 s
  .ok { error_code, sql_state, error_message := s }

/-- `EOFPacket` (`src/conn.rs`). -/
structure EOFPacket where
  warnings : Nat
  status_flags : Nat
deriving DecidableEq, Repr

/-- `EOFPacket::from_payload`: skip the `0xFE` byte, `u16` warnings,
`u16` status flags. -/
def EOFPacket.from_payload (pld : List Nat) : Except String EOFPacket := do
  let s ← skipBytes 1 pld
  let (warnings, s) ← readLeU16 s
  let (status_flags, _) ← readLeU16 s
  .ok { warnings, status_flags }

/-- `Column` (`src/conn.rs`). -/
structure Column where
  catalog : List Nat
  schema : List Nat
  table : List Nat
  org_table : List Nat
  name : List Nat
  org_name : List Nat
  default_values : List Nat
  column_length : Nat
  character_set : Nat
  flags : Nat
  column_type : Nat
  decimals : Nat
deriving DecidableEq, Repr

/-- `Column::from_payload`: six length-encoded strings, a skipped
length-encoded integer (the source discards its result, errors
included), `u16` charset, `u32` length, type byte, `u16` flags, decimals
byte, a 2-byte filler, and `default_values` only for `COM_FIELD_LIST`. -/
def Column.from_payload (command : Nat) (pld : List Nat) : Except String Column := do
  let (catalog, s) ← readLenencBytes pld
  let (schema, s) ← readLenencBytes s
  let (table, s) ← readLenencBytes s
  let (org_table, s) ← readLenencBytes s
  let (name, s) ← readLenencBytes s
  let (org_name, s) ← readLenencBytes s
  -- `let _ = reader.read_lenenc_int();` — result and failure discarded
  let s := match readLenencInt s with
           | .ok (_, r) => r
           | .error _ => s
  let (character_set, s) ← readLeU16 s
  let (column_length, s) ← readLeU32 s
  let (column_type, s) ← readU8 s
  let (flags, s) ← readLeU16 s
  let (decimals, s) ← readU8 s
  let s ← skipBytes 2 s
  let default_values ←
    if command = COM_FIELD_LIST then do
      let (len, s) ← readLenencInt s
      let (dv, _) ← readExact len s
      pure dv
    else pure []
  .ok { catalog, schema, table, org_table, name, org_name, character_set,
        column_length, column_type, flags, decimals, default_values }

/-- `Stmt` (`src/conn.rs`). -/
structure Stmt where
  params : Option (List Column)
  columns : Option (List Column)
  statement_id : Nat
  num_columns : Nat
  num_params : Nat
  warning_count : Nat
deriving DecidableEq, Repr

/-- `Stmt::from_payload`: skip the header byte, `u32` statement id,
`u16` column count, `u16` parameter count, `u16` warning count. -/
def Stmt.from_payload (pld : List Nat) : Except String Stmt := do
  let s ← skipBytes 1 pld
  let (statement_id, s) ← readLeU32 s
  let (num_columns, s) ← readLeU16 s
  let (num_params, s) ← readLeU16 s
  let (warning_count, _) ← readLeU16 s
  .ok { statement_id, num_columns, num_params, warning_count,
        params := none, columns := none }

/-! ## The `Value` model (component C4) -/

/-- Rust `i64`, carried by `Value::Int`. -/
abbrev I64 := Int

/-- The tagged value union of `src/conn.rs`.  The `f64` payload of
`Float` is modelled by its raw 8-byte bit pattern as a `Nat` (no claim
depends on floating-point arithmetic or rendering). -/
inductive Value where
  | NULL : Value
  | Bytes (x : List Nat) : Value
  | Int (x : I64) : Value
  | UInt (x : Nat) : Value
  | Float (bits : Nat) : Value
  -- year, month, day, hour, minutes, seconds, micro seconds
  | Date (y : Nat) (mo : Nat) (d : Nat) (h : Nat) (mi : Nat) (s : Nat) (us : Nat) : Value
  -- is negative, days, hours, minutes, seconds, micro seconds
  | Time (neg : Bool) (d : Nat) (h : Nat) (mi : Nat) (s : Nat) (us : Nat) : Value
deriving DecidableEq, Repr

/-- The single-quote character (byte 39), written out to keep the
development free of quote literals. -/
def squo : String := String.singleton (Char.ofNat 39)

/-- Zero-padded decimal of `n` to width `w` (Rust `{:0wu}` formatting). -/
def padNum (w n : Nat) : String :=
  let s := toString n
  String.mk (List.replicate (w - s.length) (Char.ofNat 48)) ++ s

/-- Two-digit uppercase hexadecimal of a byte (Rust `{:02X}`). -/
def hexByte (b : Nat) : String :=
  let dig : Nat → Char := fun n => Char.ofNat (if n < 10 then 48 + n else 55 + n)
  String.mk [dig (b / 16 % 16), dig (b % 16)]

/-- Is `b` a UTF-8 continuation byte? -/
def utf8Cont (b : Nat) : Bool := 0x80 ≤ b && b < 0xc0

/-- Strict UTF-8 decoding of a byte list into code points (the
behaviour of Rust `str::from_utf8`: rejects truncated sequences,
overlong encodings, surrogates and values above `0x10FFFF`). -/
def utf8DecodeList : List Nat → Option (List Char)
  | [] => some []
  | b :: rest =>
    if b < 0x80 then (utf8DecodeList rest).map (Char.ofNat b :: ·)
    else if 0xc0 ≤ b && b < 0xe0 then
      match rest with
      | b1 :: rest1 =>
        let cp := (b - 0xc0) * 64 + (b1 - 0x80)
        if utf8Cont b1 && 0x80 ≤ cp then
          (utf8DecodeList rest1).map (Char.ofNat cp :: ·)
        else none
      | _ => none
    else if 0xe0 ≤ b && b < 0xf0 then
      match rest with
      | b1 :: b2 :: rest1 =>
        let cp := (b - 0xe0) * 4096 + (b1 - 0x80) * 64 + (b2 - 0x80)
        if utf8Cont b1 && utf8Cont b2 && 0x800 ≤ cp && ¬(0xd800 ≤ cp && cp ≤ 0xdfff) then
          (utf8DecodeList rest1).map (Char.ofNat cp :: ·)
        else none
      | _ => none
    else if 0xf0 ≤ b && b < 0xf8 then
      match rest with
      | b1 :: b2 :: b3 :: rest1 =>
        let cp := (b - 0xf0) * 262144 + (b1 - 0x80) * 4096 + (b2 - 0x80) * 64 + (b3 - 0x80)
        if utf8Cont b1 && utf8Cont b2 && utf8Cont b3 && 0x10000 ≤ cp && cp ≤ 0x10ffff then
          (utf8DecodeList rest1).map (Char.ofNat cp :: ·)
        else none
      | _ => none
    else none

/-- `str::from_utf8`: `some` of the decoded string when the bytes are
valid UTF-8, `none` otherwise. -/
def strFromUtf8 (x : List Nat) : Option String :=
  (utf8DecodeList x).map fun cs => { data := cs }

/-- Stand-in for Rust `{:f}` rendering of an `f64`; exact decimal
formatting of IEEE doubles is outside this embedding and no claim
depends on it. -/
def floatRender (bits : Nat) : String := "float:" ++ toString bits

/-- Rust `str::replace` for the single-character pattern the source
uses: every occurrence of the character is replaced by the replacement
string. -/
def replaceChar (s : String) (c : Char) (rep : String) : String :=
  String.mk ((s.data.map fun ch => if ch = c then rep.data else [ch]).flatten)

/-- `Value::into_str` (`src/conn.rs`): text rendering of a value.  In
the `Bytes` branch the source computes `s.replace("'", "\'")`; the Rust
escape `\'` in that literal denotes the single-quote character itself,
so the replacement string equals the pattern. -/
def Value.into_str : Value → String
  | .NULL => "NULL"
  | .Bytes x =>
    match strFromUtf8 x with
    | some s =>
      let replaced := replaceChar s (Char.ofNat 39) squo
      squo ++ replaced ++ squo
    | none => "0x" ++ String.join (x.map hexByte)
  | .Int x => toString x
  | .UInt x => toString x
  | .Float bits => floatRender bits
  | .Date 0 0 0 0 0 0 0 => squo ++ squo
  | .Date y m d 0 0 0 0 => squo ++ padNum 4 y ++ "-" ++ padNum 2 m ++ "-" ++ padNum 2 d ++ squo
  | .Date y m d h i s 0 =>
    squo ++ padNum 4 y ++ "-" ++ padNum 2 m ++ "-" ++ padNum 2 d ++ " " ++
      padNum 2 h ++ ":" ++ padNum 2 i ++ ":" ++ padNum 2 s ++ squo
  | .Date y m d h i s u =>
    squo ++ padNum 4 y ++ "-" ++ padNum 2 m ++ "-" ++ padNum 2 d ++ " " ++
      padNum 2 h ++ ":" ++ padNum 2 i ++ ":" ++ padNum 2 s ++ "." ++ padNum 6 u ++ squo
  | .Time _ 0 0 0 0 0 => squo ++ squo
  | .Time neg d h i s 0 =>
    squo ++ (if neg then "-" else "") ++ toString d ++ " " ++
      padNum 3 h ++ ":" ++ padNum 2 i ++ ":" ++ padNum 2 s ++ squo
  | .Time neg d h i s u =>
    squo ++ (if neg then "-" else "") ++ toString d ++ " " ++
      padNum 3 h ++ ":" ++ padNum 2 i ++ ":" ++ padNum 2 s ++ "." ++ padNum 6 u ++ squo

/-- Outcome of a partial accessor: either the value, or the abort of the
task that Rust `fail!` performs (carrying the failure message). -/
inductive FailOr (α : Type) where
  | val : α → FailOr α
  | failed : String → FailOr α
deriving DecidableEq, Repr

/-- Does this outcome abort the task? -/
def FailOr.isFailed : FailOr α → Bool
  | .val _ => false
  | .failed _ => true

/-- `Value::is_bytes`. -/
def Value.is_bytes : Value → Bool
  | .Bytes _ => true
  | _ => false

/-- `Value::bytes_ref` — `fail!`s on a non-`Bytes` value. -/
def Value.bytes_ref : Value → FailOr (List Nat)
  | .Bytes x => .val x
  | _ => .failed "Called `Value::bytes_ref()` on non `Bytes` value"

/-- `Value::unwrap_bytes` — `fail!`s on a non-`Bytes` value. -/
def Value.unwrap_bytes : Value → FailOr (List Nat)
  | .Bytes x => .val x
  | _ => .failed "Called `Value::unwrap_bytes()` on non `Bytes` value"

/-- `Value::unwrap_bytes_or`. -/
def Value.unwrap_bytes_or : Value → List Nat → List Nat
  | .Bytes x, _ => x
  | _, y => y

/-- `Value::is_int`. -/
def Value.is_int : Value → Bool
  | .Int _ => true
  | _ => false

/-- `Value::get_int` — `fail!`s on a non-`Int` value. -/
def Value.get_int : Value → FailOr I64
  | .Int x => .val x
  | _ => .failed "Called `Value::get_int()` on non `Int` value"

/-- `Value::get_int_or`. -/
def Value.get_int_or : Value → I64 → I64
  | .Int x, _ => x
  | _, y => y

/-- `Value::is_uint`. -/
def Value.is_uint : Value → Bool
  | .UInt _ => true
  | _ => false

/-- `Value::get_uint` — `fail!`s on a non-`UInt` value. -/
def Value.get_uint : Value → FailOr Nat
  | .UInt x => .val x
  | _ => .failed "Called `Value::get_uint()` on non `UInt` value"

/-- `Value::get_uint_or`. -/
def Value.get_uint_or : Value → Nat → Nat
  | .UInt x, _ => x
  | _, y => y

/-- `Value::is_float`. -/
def Value.is_float : Value → Bool
  | .Float _ => true
  | _ => false

/-- `Value::get_float` — `fail!`s on a non-`Float` value. -/
def Value.get_float : Value → FailOr Nat
  | .Float x => .val x
  | _ => .failed "Called `Value::get_float()` on non `Float` value"

/-- `Value::get_float_or`. -/
def Value.get_float_or : Value → Nat → Nat
  | .Float x, _ => x
  | _, y => y

/-- `Value::is_date`. -/
def Value.is_date : Value → Bool
  | .Date .. => true
  | _ => false

/-- `Value::get_year` — `fail!`s on a non-`Date` value. -/
def Value.get_year : Value → FailOr Nat
  | .Date y _ _ _ _ _ _ => .val y
  | _ => .failed "Called `Value::get_year()` on non `Date` value"

/-- `Value::get_month` — `fail!`s on a non-`Date` value. -/
def Value.get_month : Value → FailOr Nat
  | .Date _ m _ _ _ _ _ => .val m
  | _ => .failed "Called `Value::get_month()` on non `Date` value"

/-- `Value::get_day` — `fail!`s on a non-`Date` value. -/
def Value.get_day : Value → FailOr Nat
  | .Date _ _ d _ _ _ _ => .val d
  | _ => .failed "Called `Value::get_day()` on non `Date` value"

/-- `Value::is_time`. -/
def Value.is_time : Value → Bool
  | .Time .. => true
  | _ => false

/-- `Value::is_neg` — `fail!`s on a non-`Time` value. -/
def Value.is_neg : Value → FailOr Bool
  | .Time false _ _ _ _ _ => .val false
  | .Time true _ _ _ _ _ => .val true
  | _ => .failed "Called `Value::is_neg()` on non `Time` value"

/-- `Value::get_days` — `fail!`s on a non-`Time` value. -/
def Value.get_days : Value → FailOr Nat
  | .Time _ d _ _ _ _ => .val d
  | _ => .failed "Called `Value::get_days()` on non `Time` value"

/-- `Value::get_hour` — `fail!`s on a value that is neither `Date` nor
`Time`. -/
def Value.get_hour : Value → FailOr Nat
  | .Date _ _ _ h _ _ _ => .val h
  | .Time _ _ h _ _ _ => .val h
  | _ => .failed "Called `Value::get_hour()` on non `Date` nor `Time` value"

/-- `Value::get_min` — `fail!`s on a value that is neither `Date` nor
`Time`. -/
def Value.get_min : Value → FailOr Nat
  | .Date _ _ _ _ i _ _ => .val i
  | .Time _ _ _ i _ _ => .val i
  | _ => .failed "Called `Value::get_min()` on non `Date` nor `Time` value"

/-- `Value::get_sec` — `fail!`s on a value that is neither `Date` nor
`Time`. -/
def Value.get_sec : Value → FailOr Nat
  | .Date _ _ _ _ _ s _ => .val s
  | .Time _ _ _ _ s _ => .val s
  | _ => .failed "Called `Value::get_sec()` on non `Date` nor `Time` value"

/-- `Value::get_usec` — `fail!`s on a value that is neither `Date` nor
`Time`. -/
def Value.get_usec : Value → FailOr Nat
  | .Date _ _ _ _ _ _ u => .val u
  | .Time _ _ _ _ _ u => .val u
  | _ => .failed "Called `Value::get_usec()` on non `Date` nor `Time` value"

/-- The 8 little-endian bytes of an `i64` (two's complement). -/
def i64Bytes (x : I64) : List Nat := leBytes 8 (x % (2 ^ 64 : Int)).toNat

/-- `Value::to_bin` (`src/conn.rs`): binary parameter encoding.  The
in-memory writer of the source cannot fail, so the result is the byte
list directly. -/
def Value.to_bin : Value → List Nat
  | .NULL => []
  | .Bytes x => writeLenencBytes x
  | .Int x => i64Bytes x
  | .UInt x => leBytes 8 x
  | .Float bits => leBytes 8 bits
  | .Date 0 0 0 0 0 0 0 => [0]
  | .Date y m d 0 0 0 0 => [4] ++ leBytes 2 y ++ [m, d]
  | .Date y m d h i s 0 => [7] ++ leBytes 2 y ++ [m, d, h, i, s]
  | .Date y m d h i s u => [11] ++ leBytes 2 y ++ [m, d, h, i, s] ++ leBytes 4 u
  | .Time _ 0 0 0 0 0 => [0]
  | .Time neg d h m s 0 => [8, if neg then 1 else 0] ++ leBytes 4 d ++ [h, m, s]
  | .Time neg d h m s u =>
    [12, if neg then 1 else 0] ++ leBytes 4 d ++ [h, m, s] ++ leBytes 4 u

/-! Length lemmas about the reading primitives, used for termination of
the row-decoding loops and to show that a successful packet read
consumes transport bytes. -/

theorem readExact_rest_le {n : Nat} {s x r : List Nat}
    (h : readExact n s = .ok (x, r)) : r.length ≤ s.length := by
  unfold readExact at h
  split at h
  · simp only [Except.ok.injEq, Prod.mk.injEq] at h
    obtain ⟨-, hr⟩ := h
    subst hr
    simp
  · cases h

theorem readLeUintN_rest_le {k : Nat} {s : List Nat} {n : Nat} {r : List Nat}
    (h : readLeUintN k s = .ok (n, r)) : r.length ≤ s.length := by
  unfold readLeUintN at h
  split at h
  · cases h
  · rename_i bytes rest heq
    simp only [Except.ok.injEq, Prod.mk.injEq] at h
    obtain ⟨-, hr⟩ := h
    subst hr
    exact readExact_rest_le heq

theorem readLenencInt_rest_lt {s : List Nat} {n : Nat} {r : List Nat}
    (h : readLenencInt s = .ok (n, r)) : r.length < s.length := by
  match s with
  | [] => cases h
  | b :: t =>
    unfold readLenencInt readU8 at h
    simp only at h
    split at h
    · simp only [Except.ok.injEq, Prod.mk.injEq] at h
      obtain ⟨-, hr⟩ := h
      subst hr
      simp
    · split at h
      · have := readLeUintN_rest_le h
        simp at this ⊢
        omega
      · split at h
        · have := readLeUintN_rest_le h
          simp at this ⊢
          omega
        · split at h
          · have := readLeUintN_rest_le h
            simp at this ⊢
            omega
          · cases h

theorem readLenencBytes_rest_lt {s x : List Nat} {r : List Nat}
    (h : readLenencBytes s = .ok (x, r)) : r.length < s.length := by
  unfold readLenencBytes at h
  split at h
  · cases h
  · rename_i n rest heq
    have h1 := readLenencInt_rest_lt heq
    have h2 := readExact_rest_le h
    omega

/-- The loop of `Value::from_payload`: while the payload is not
exhausted, a `0xFB` byte yields `NULL`, anything else a length-encoded
string yielding `Bytes`. -/
def fromPayloadLoop : (s : List Nat) → Except String (List Value)
  | [] => .ok []
  | b :: rest =>
    if b = 0xfb then
      match fromPayloadLoop rest with
      | .error e => .error e
      | .ok vs => .ok (.NULL :: vs)
    else
      match hr : readLenencBytes (b :: rest) with
      | .error e => .error e
      | .ok (x, r) =>
        match fromPayloadLoop r with
        | .error e => .error e
        | .ok vs => .ok (.Bytes x :: vs)
termination_by s => s.length
decreasing_by
  · simp
  · exact readLenencBytes_rest_lt hr

/-- `Value::from_payload` (`src/conn.rs`): text-protocol row decoding.
The `columns_count` argument is used by the source only as a capacity
hint. -/
def Value.from_payload (pld : List Nat) (_columns_count : Nat) : Except String (List Value) :=
  fromPayloadLoop pld

/-- Signed little-endian value of `w` bytes (two's complement). -/
def sintOfBytes (w : Nat) (bytes : List Nat) : I64 :=
  let n := leValue bytes
  if n < 2 ^ (8 * w - 1) then (n : Int) else (n : Int) - (2 ^ (8 * w) : Int)

/-- Fixed-width binary integer column read (helper for
`read_bin_value`). -/
def readBinInt (w : Nat) (unsigned : Bool) (s : List Nat) :
    Except String (Value × List Nat) := do
  let (bytes, r) ← readExact w s
  pure (if unsigned then .UInt (leValue bytes) else .Int (sintOfBytes w bytes), r)

/-- Modelled from the spec: `read_bin_value` of the `io` module (not
under `src/`), the binary result-row value decoder (spec section 4.2):
switched on the column type and the `UNSIGNED` flag; integer widths
TINY=1, SHORT=2, LONG=4, LONGLONG=8; float=4 and double=8 bytes (the
widening of the 4 float bytes to an `f64` is not modelled — the bit
pattern is kept); temporal lengths 0/4/7/11 for DATE/DATETIME/TIMESTAMP
and 0/8/12 for TIME with a sign byte before `days`; all string-ish
types decode as length-encoded bytes. -/
def read_bin_value (col_type : Nat) (unsigned : Bool) (s : List Nat) :
    Except String (Value × List Nat) :=
  if col_type = MYSQL_TYPE_TINY then readBinInt 1 unsigned s
  else if col_type = MYSQL_TYPE_SHORT then readBinInt 2 unsigned s
  else if col_type = MYSQL_TYPE_LONG then readBinInt 4 unsigned s
  else if col_type = MYSQL_TYPE_LONGLONG then readBinInt 8 unsigned s
  else if col_type = MYSQL_TYPE_FLOAT then do
    let (bytes, r) ← readExact 4 s
    pure (.Float (leValue bytes), r)
  else if col_type = MYSQL_TYPE_DOUBLE then do
    let (bytes, r) ← readExact 8 s
    pure (.Float (leValue bytes), r)
  else if col_type = MYSQL_TYPE_DATE ∨ col_type = MYSQL_TYPE_DATETIME ∨
      col_type = MYSQL_TYPE_TIMESTAMP then do
    let (len, r) ← readU8 s
    if len = 0 then pure (.Date 0 0 0 0 0 0 0, r)
    else if len = 4 then do
      let (yb, r) ← readExact 2 r
      let (m, r) ← readU8 r
      let (d, r) ← readU8 r
      pure (.Date (leValue yb) m d 0 0 0 0, r)
    else if len = 7 then do
      let (yb, r) ← readExact 2 r
      let (m, r) ← readU8 r
      let (d, r) ← readU8 r
      let (h, r) ← readU8 r
      let (i, r) ← readU8 r
      let (sec, r) ← readU8 r
      pure (.Date (leValue yb) m d h i sec 0, r)
    else if len = 11 then do
      let (yb, r) ← readExact 2 r
      let (m, r) ← readU8 r
      let (d, r) ← readU8 r
      let (h, r) ← readU8 r
      let (i, r) ← readU8 r
      let (sec, r) ← readU8 r
      let (ub, r) ← readExact 4 r
      pure (.Date (leValue yb) m d h i sec (leValue ub), r)
    else .error "invalid temporal value length"
  else if col_type = MYSQL_TYPE_TIME then do
    let (len, r) ← readU8 s
    if len = 0 then pure (.Time false 0 0 0 0 0, r)
    else if len = 8 then do
      let (neg, r) ← readU8 r
      let (db, r) ← readExact 4 r
      let (h, r) ← readU8 r
      let (m, r) ← readU8 r
      let (sec, r) ← readU8 r
      pure (.Time (neg ≠ 0) (leValue db) h m sec 0, r)
    else if len = 12 then do
      let (neg, r) ← readU8 r
      let (db, r) ← readExact 4 r
      let (h, r) ← readU8 r
      let (m, r) ← readU8 r
      let (sec, r) ← readU8 r
      let (ub, r) ← readExact 4 r
      pure (.Time (neg ≠ 0) (leValue db) h m sec (leValue ub), r)
    else .error "invalid time value length"
  else do
    let (x, r) ← readLenencBytes s
    pure (.Bytes x, r)

/-- The per-column loop of `Value::from_bin_payload`: column `i` is
`NULL` when bit `(i + 2)` of the null bitmap is set, otherwise its
binary value is read. -/
def fromBinLoop (bitmap : List Nat) : List Column → Nat → List Nat →
    Except String (List Value)
  | [], _, _ => .ok []
  | c :: cs, i, s =>
    if ((bitmap.getD ((i + 2) / 8) 0) &&& (1 <<< ((i + 2) % 8))) = 0 then do
      let (v, r) ← read_bin_value c.column_type ((c.flags &&& UNSIGNED_FLAG) ≠ 0) s
      let vs ← fromBinLoop bitmap cs (i + 1) r
      pure (v :: vs)
    else do
      let vs ← fromBinLoop bitmap cs (i + 1) s
      pure (.NULL :: vs)

/-- `Value::from_bin_payload` (`src/conn.rs`): binary row decoding with
the 2-bit-offset null bitmap.  The source indexes `pld[i + 1]` and
slices from `1 + bitmap_len` unconditionally and would abort on a
shorter payload; that abort is modelled as an error. -/
def Value.from_bin_payload (pld : List Nat) (columns : List Column) :
    Except String (List Value) :=
  let bit_offset := 2
  let bitmap_len := (columns.length + 7 + bit_offset) / 8
  if pld.length < 1 + bitmap_len then .error "index out of bounds"
  else fromBinLoop ((pld.drop 1).take bitmap_len) columns 0 (pld.drop (1 + bitmap_len))

/-- Set bit `i` of the parameter-send null bitmap
(`*bitmap.get_mut(i / 8) |= 1 << (i % 8)`). -/
def setBit (bm : List Nat) (i : Nat) : List Nat :=
  bm.set (i / 8) ((bm.getD (i / 8) 0) ||| (1 <<< (i % 8)))

/-- The per-value loop of `Value::to_bin_payload`: `NULL` sets a bitmap
bit; any other value is encoded and appended to the value block when it
still fits (`val.len() < cap - written`, wrapping `uint` subtraction),
and otherwise its index is queued for `send_long_data`. -/
def toBinLoop (cap : Nat) : List Value → Nat → Nat → List Nat → List Nat →
    List Nat → (List Nat × List Nat × List Nat)
  | [], _, _, bitmap, writer, large_ids => (bitmap, writer, large_ids)
  | v :: vs, i, written, bitmap, writer, large_ids =>
    match v with
    | .NULL => toBinLoop cap vs (i + 1) written (setBit bitmap i) writer large_ids
    | _ =>
      let val := v.to_bin
      if val.length < wsub cap written then
        toBinLoop cap vs (i + 1) (written + val.length) bitmap (writer ++ val) large_ids
      else
        toBinLoop cap vs (i + 1) written bitmap writer (large_ids ++ [i])

/-- `Value::to_bin_payload` (`src/conn.rs`): null bitmap, value block
and optional list of indices to send through `send_long_data`.  The
capacity is `max_allowed_packet - bitmap_len - values.len() * 8` in
wrapping `uint` arithmetic.  The in-memory writer cannot fail, so the
`IoResult` of the source is always `Ok`. -/
def Value.to_bin_payload (params : List Column) (values : List Value)
    (max_allowed_packet : Nat) :
    Except String (List Nat × List Nat × Option (List Nat)) :=
  let bitmap_len := (params.length + 7) / 8
  let cap := wsub (wsub max_allowed_packet bitmap_len) (values.length * 8)
  let (bitmap, writer, large_ids) :=
    toBinLoop cap values 0 0 (List.replicate bitmap_len 0) [] []
  if large_ids.length = 0 then .ok (bitmap, writer, none)
  else .ok (bitmap, writer, some large_ids)

/-! ## Errors and connection state (components C2, C6) -/

/-- The error type of the source (`MyError`), with IO errors carried as
strings. -/
inductive MyError where
  | MyIoError (e : String) : MyError
  | MySqlError (p : ErrPacket) : MyError
  | MyStrError (s : String) : MyError
deriving DecidableEq, Repr

/-- `MyConn` (`src/conn.rs`).  The transport stream is modelled by two
byte lists: `in_stream` holds the bytes not yet read from the server,
`out_stream` accumulates every byte written. -/
structure MyConn where
  affected_rows : Nat
  last_insert_id : Nat
  max_allowed_packet : Nat
  capability_flags : Nat
  connection_id : Nat
  status_flags : Nat
  seq_id : Nat
  character_set : Nat
  last_command : Nat
  connected : Bool
  in_stream : List Nat
  out_stream : List Nat
deriving DecidableEq, Repr

/-- `MyConn::handle_ok`: adopt `affected_rows`, `last_insert_id` and
`status_flags` from an OK packet. -/
def MyConn.handle_ok (c : MyConn) (op : OkPacket) : MyConn :=
  { c with affected_rows := op.affected_rows,
           last_insert_id := op.last_insert_id,
           status_flags := op.status_flags }

/-- `MyConn::handle_eof`: adopt `status_flags` from an EOF packet. -/
def MyConn.handle_eof (c : MyConn) (eof : EOFPacket) : MyConn :=
  { c with status_flags := eof.status_flags }

/-- `MyConn::handle_handshake`: adopt the negotiated fields from the
server handshake. -/
def MyConn.handle_handshake (c : MyConn) (hp : Nat × Nat × Nat × Nat) : MyConn :=
  { c with capability_flags := hp.1, status_flags := hp.2.1,
           connection_id := hp.2.2.1, character_set := hp.2.2.2 }

/-- The frame-reading loop of `MyConn::read_packet`: read the 3-byte
little-endian length and the sequence byte, check the sequence id,
append the frame payload; continue only after a maximal
(`MAX_PAYLOAD_LEN`) frame; a zero-length frame ends the payload.
Returns the logical payload, the next expected sequence id and the
unread rest of the stream. -/
def readFramesLoop (seq : Nat) (wire : List Nat) (acc : List Nat) :
    Except MyError (List Nat × Nat × List Nat) :=
  match wire with
  | b0 :: b1 :: b2 :: s :: rest =>
    let payload_len := b0 % 256 + 256 * (b1 % 256) + 65536 * (b2 % 256)
    if s ≠ seq then .error (.MyStrError "Packet out of sync")
    else
      let seq1 := (seq + 1) % 256
      if payload_len ≥ MAX_PAYLOAD_LEN then
        if rest.length < MAX_PAYLOAD_LEN then .error (.MyIoError "end of file")
        else readFramesLoop seq1 (rest.drop MAX_PAYLOAD_LEN)
               (acc ++ rest.take MAX_PAYLOAD_LEN)
      else if payload_len = 0 then .ok (acc, seq1, rest)
      else if rest.length < payload_len then .error (.MyIoError "end of file")
      else .ok (acc ++ rest.take payload_len, seq1, rest.drop payload_len)
  | _ => .error (.MyIoError "end of file")
termination_by wire.length
decreasing_by
  simp
  have : (rest.drop MAX_PAYLOAD_LEN).length ≤ rest.length := by simp
  omega

/-- `MyConn::read_packet` (`src/conn.rs`): assemble one logical packet
from the inbound stream, enforcing sequence monotonicity.  On an error
the returned connection is the one passed in (the real connection is
unusable at that point). -/
def MyConn.read_packet (c : MyConn) : Except MyError (List Nat) × MyConn :=
  match readFramesLoop c.seq_id c.in_stream [] with
  | .error e => (.error e, c)
  | .ok (pld, seq1, rest) =>
    (.ok pld, { c with seq_id := seq1, in_stream := rest })

/-- The 3-byte little-endian frame length header written by
`MyConn::write_packet` (`chunk_len & 255`, `(chunk_len & 0xFF00) >> 8`,
`(chunk_len & 0xFF0000) >> 16`; the `MAX_PAYLOAD_LEN` case writes
`255, 255, 255`, which is the same encoding). -/
def le3 (n : Nat) : List Nat := [n % 256, n / 256 % 256, n / 65536 % 256]

/-- The chunking loop of `MyConn::write_packet`: emit frames of exactly
`MAX_PAYLOAD_LEN` bytes while the remaining payload is at least that
long, then the final short frame; a payload that ends on an exact
maximal chunk (including the empty payload) ends with a zero-length
frame.  Returns the wire bytes and the next sequence id. -/
def writeFramesLoop (seq : Nat) (data : List Nat) : List Nat × Nat :=
  if data.length < MAX_PAYLOAD_LEN then
    (le3 data.length ++ [seq] ++ data, (seq + 1) % 256)
  else
    let frame := le3 MAX_PAYLOAD_LEN ++ [seq] ++ data.take MAX_PAYLOAD_LEN
    let ws := writeFramesLoop ((seq + 1) % 256) (data.drop MAX_PAYLOAD_LEN)
    (frame ++ ws.1, ws.2)
termination_by data.length
decreasing_by
  have : MAX_PAYLOAD_LEN = 2 ^ 24 - 1 := rfl
  simp
  omega

/-- `MyConn::write_packet` (`src/conn.rs`): reject a payload larger
than the learned `max_allowed_packet` when that limit is below
`MAX_PAYLOAD_LEN`; otherwise frame the payload onto the outbound
stream. -/
def MyConn.write_packet (c : MyConn) (data : List Nat) : Except MyError Unit × MyConn :=
  if data.length > c.max_allowed_packet ∧ c.max_allowed_packet < MAX_PAYLOAD_LEN then
    (.error (.MyStrError "Packet too large"), c)
  else
    let ws := writeFramesLoop c.seq_id data
    (.ok (), { c with seq_id := ws.2, out_stream := c.out_stream ++ ws.1 })

/-- `MyConn::write_command_data` (`src/conn.rs`): reset the sequence id
to 0, remember the command byte, and send the command packet. -/
def MyConn.write_command_data (c : MyConn) (cmd : Nat) (buf : List Nat) :
    Except MyError Unit × MyConn :=
  let c := { c with seq_id := 0, last_command := cmd }
  c.write_packet (cmd :: buf)

/-- `MyConn::write_command` (`src/conn.rs`): a command with no
payload. -/
def MyConn.write_command (c : MyConn) (cmd : Nat) : Except MyError Unit × MyConn :=
  let c := { c with seq_id := 0, last_command := cmd }
  c.write_packet [cmd]

/-- Split a list into chunks of `n` (Rust `slice::chunks`; the source
never calls it with `n = 0`, which would abort). -/
def listChunks (n : Nat) : List Nat → List (List Nat)
  | [] => []
  | a :: t =>
    if h : n = 0 then []
    else (a :: t).take n :: listChunks n ((a :: t).drop n)
termination_by l => l.length
decreasing_by
  simp
  omega

/-- The chunk packets written by `MyConn::send_long_data` for one
parameter id: `statement_id (u32) + param_index (u16) + chunk`, each
chunk at most `max_allowed_packet - 7` bytes. -/
def longDataChunks (statement_id id map : Nat) (x : List Nat) : List (List Nat) :=
  (listChunks (wsub map 7) x).map fun chunk => leBytes 4 statement_id ++ leBytes 2 id ++ chunk

/-- Write a sequence of `COM_STMT_SEND_LONG_DATA` command packets (the
inner chunk loop of `MyConn::send_long_data`). -/
def sendChunksLoop (c : MyConn) : List (List Nat) → Except MyError Unit × MyConn
  | [] => (.ok (), c)
  | pkt :: pkts =>
    match c.write_command_data COM_STMT_SEND_LONG_DATA pkt with
    | (.error e, c1) => (.error e, c1)
    | (.ok (), c1) => sendChunksLoop c1 pkts

/-- The per-id loop of `MyConn::send_long_data`: a `Bytes` parameter is
sent in chunks through `COM_STMT_SEND_LONG_DATA`; any other parameter
is skipped (the source comment: quite strange so do nothing).  An
out-of-range id would abort the source; here the missing parameter
reads as `NULL` and is likewise skipped. -/
def sendLongDataLoop (c : MyConn) (stmt : Stmt) (params : List Value) :
    List Nat → Except MyError Unit × MyConn
  | [] => (.ok (), c)
  | id :: ids =>
    match params.getD id .NULL with
    | .Bytes x =>
      match sendChunksLoop c (longDataChunks stmt.statement_id id c.max_allowed_packet x) with
      | (.error e, c1) => (.error e, c1)
      | (.ok (), c1) => sendLongDataLoop c1 stmt params ids
    | _ => sendLongDataLoop c stmt params ids

/-- `MyConn::send_long_data` (`src/conn.rs`). -/
def MyConn.send_long_data (c : MyConn) (stmt : Stmt) (params : List Value)
    (ids : List Nat) : Except MyError Unit × MyConn :=
  sendLongDataLoop c stmt params ids

/-- A `Column` with all fields empty (stand-in for the out-of-bounds
index into `stmt.params` on which the source would abort). -/
def defaultColumn : Column :=
  { catalog := [], schema := [], table := [], org_table := [], name := [],
    org_name := [], default_values := [], column_length := 0,
    character_set := 0, flags := 0, column_type := 0, decimals := 0 }

/-- The type-descriptor block of `COM_STMT_EXECUTE`: one
`(type byte, unsigned-flag byte)` pair per supplied parameter; a `NULL`
parameter repeats the prepared column's type, `UInt` sets the unsigned
bit `128`. -/
def typeDescriptors (ps : List Column) (params : List Value) : List Nat :=
  (params.enum.map fun iv =>
    match iv.2 with
    | .NULL => [(ps.getD iv.1 defaultColumn).column_type, 0]
    | .Bytes _ => [MYSQL_TYPE_VAR_STRING, 0]
    | .Int _ => [MYSQL_TYPE_LONGLONG, 0]
    | .UInt _ => [MYSQL_TYPE_LONGLONG, 128]
    | .Float _ => [MYSQL_TYPE_DOUBLE, 0]
    | .Date .. => [MYSQL_TYPE_DATE, 0]
    | .Time .. => [MYSQL_TYPE_TIME, 0]).flatten

/-- The column-definition reading loop shared by the result dispatch of
`query`, `execute` and `prepare`: read `n` packets and parse each as a
column definition. -/
def readColumnsLoop : MyConn → Nat → Except MyError (List Column) × MyConn
  | c, 0 => (.ok [], c)
  | c, n + 1 =>
    match c.read_packet with
    | (.error e, c1) => (.error e, c1)
    | (.ok pld, c1) =>
      match Column.from_payload c1.last_command pld with
      | .error e => (.error (.MyIoError e), c1)
      | .ok col =>
        match readColumnsLoop c1 n with
        | (.error e, c2) => (.error e, c2)
        | (.ok cols, c2) => (.ok (col :: cols), c2)

/-- The response phase of `MyConn::execute`: send the
`COM_STMT_EXECUTE` packet and dispatch on the first byte of the
response (`0x00` OK, `0xFF` ERR, otherwise a column count followed by
the column definitions and a skipped EOF packet; the source reads the
first payload byte unconditionally and would abort on an empty
payload). `some columns` stands for the binary `QueryResult` the source
builds from them (`eof = false`, `is_bin = true`). -/
def executeFinish (c : MyConn) (payload : List Nat) :
    Except MyError (Option (List Column)) × MyConn :=
  match c.write_command_data COM_STMT_EXECUTE payload with
  | (.error e, c1) => (.error e, c1)
  | (.ok (), c1) =>
    match c1.read_packet with
    | (.error e, c2) => (.error e, c2)
    | (.ok pld, c2) =>
      if pld.getD 0 0 = 0 then
        match OkPacket.from_payload pld with
        | .error e => (.error (.MyIoError e), c2)
        | .ok op => (.ok none, c2.handle_ok op)
      else if pld.getD 0 0 = 0xff then
        match ErrPacket.from_payload pld with
        | .error e => (.error (.MyIoError e), c2)
        | .ok p => (.error (.MySqlError p), c2)
      else
        match readLenencInt pld with
        | .error e => (.error (.MyIoError e), c2)
        | .ok (column_count, _) =>
          match readColumnsLoop c2 column_count with
          | (.error e, c3) => (.error e, c3)
          | (.ok cols, c3) =>
            match c3.read_packet with
            | (.error e, c4) => (.error e, c4)
            | (.ok _, c4) => (.ok (some cols), c4)

/-- `MyConn::execute` (`src/conn.rs`): check the parameter arity first
— the source compares `stmt.num_params != params.len() as u16`, the
supplied length truncated to a `u16` (modulo `2^16`), while the error
message carries the untruncated length; then assemble `statement_id
(u32) + flags (u8) 0 + iteration_count (u32) 1`, and for a statement
with parameters the null bitmap, the `new_params_bound` byte `1`, the
type descriptors and the value block (after any long-data sends). -/
def MyConn.execute (c : MyConn) (stmt : Stmt) (params : List Value) :
    Except MyError (Option (List Column)) × MyConn :=
  if stmt.num_params ≠ params.length % 65536 then
    (.error (.MyStrError ("Statement takes " ++ toString stmt.num_params ++
      " parameters but " ++ toString params.length ++ " was supplied")), c)
  else
    let hdr := leBytes 4 stmt.statement_id ++ [0] ++ leBytes 4 1
    if stmt.num_params > 0 then
      -- the source unwraps `stmt.params` (`get_ref`), aborting when it was
      -- never filled; the empty list stands in for that state
      match Value.to_bin_payload (stmt.params.getD []) params c.max_allowed_packet with
      | .error e => (.error (.MyIoError e), c)
      | .ok (bitmap, vals, large_ids) =>
        let step : Except MyError Unit × MyConn :=
          match large_ids with
          | some ids => c.send_long_data stmt params ids
          | none => (.ok (), c)
        match step with
        | (.error e, c1) => (.error e, c1)
        | (.ok (), c1) =>
          executeFinish c1
            (hdr ++ bitmap ++ [1] ++ typeDescriptors (stmt.params.getD []) params ++ vals)
    else executeFinish c hdr

/-- The file-streaming loop of `MyConn::send_local_infile`: each chunk
the file reader produces is written as one packet.  The filesystem is
modelled by the list of chunk reads (each at most `max_allowed_packet`
bytes, the buffer size of the source). -/
def sendFileChunks (c : MyConn) : List (List Nat) → Except MyError Unit × MyConn
  | [] => (.ok (), c)
  | ch :: chs =>
    match c.write_packet ch with
    | (.error e, c1) => (.error e, c1)
    | (.ok (), c1) => sendFileChunks c1 chs

/-- `MyConn::send_local_infile` (`src/conn.rs`), after the file was
opened: stream the chunks, write the terminating empty packet, then
read exactly one packet; a first byte `0x00` absorbs the OK packet
(`handle_ok`); any other packet is discarded and the call still
returns `Ok(())`. -/
def MyConn.send_local_infile (c : MyConn) (file_chunks : List (List Nat)) :
    Except MyError Unit × MyConn :=
  match sendFileChunks c file_chunks with
  | (.error e, c1) => (.error e, c1)
  | (.ok (), c1) =>
    match c1.write_packet [] with
    | (.error e, c2) => (.error e, c2)
    | (.ok (), c2) =>
      match c2.read_packet with
      | (.error e, c3) => (.error e, c3)
      | (.ok pld, c3) =>
        if pld.getD 0 0 = 0 then
          match OkPacket.from_payload pld with
          | .error e => (.error (.MyIoError e), c3)
          | .ok op => (.ok (), c3.handle_ok op)
        else (.ok (), c3)

/-! ## Result-set streaming (component C7) -/

/-- A successful frame-loop read consumes at least the 4 header bytes
of one frame (stated with an explicit bound for the induction). -/
theorem readFramesLoop_rest_lt_aux (k : Nat) :
    ∀ (wire : List Nat), wire.length ≤ k →
      ∀ (seq : Nat) (acc pld : List Nat) (s1 : Nat) (rest : List Nat),
        readFramesLoop seq wire acc = .ok (pld, s1, rest) →
          rest.length < wire.length := by
  induction k with
  | zero =>
    intro wire hw seq acc pld s1 rest h
    have hnil : wire = [] := List.length_eq_zero.mp (Nat.le_zero.mp hw)
    subst hnil
    simp [readFramesLoop] at h
  | succ k ih =>
    intro wire hw seq acc pld s1 rest h
    rcases wire with _ | ⟨b0, _ | ⟨b1, _ | ⟨b2, _ | ⟨s, rest0⟩⟩⟩⟩
    · simp [readFramesLoop] at h
    · simp [readFramesLoop] at h
    · simp [readFramesLoop] at h
    · simp [readFramesLoop] at h
    · simp only [readFramesLoop] at h
      split at h
      · exact absurd h (by simp)
      · split at h
        · split at h
          · exact absurd h (by simp)
          · have h5 : (rest0.drop MAX_PAYLOAD_LEN).length ≤ k := by
              simp only [List.length_cons] at hw
              simp only [List.length_drop]
              omega
            have h6 := ih _ h5 _ _ _ _ _ h
            simp only [List.length_drop] at h6
            simp only [List.length_cons]
            omega
        · split at h
          · simp only [Except.ok.injEq, Prod.mk.injEq] at h
            obtain ⟨-, -, hr⟩ := h
            subst hr
            simp only [List.length_cons]
            omega
          · split at h
            · exact absurd h (by simp)
            · simp only [Except.ok.injEq, Prod.mk.injEq] at h
              obtain ⟨-, -, hr⟩ := h
              subst hr
              simp only [List.length_cons, List.length_drop]
              omega

/-- A successful frame-loop read consumes at least the 4 header bytes
of one frame (wrapper around the bounded induction). -/
theorem readFramesLoop_rest_lt (seq : Nat) (wire acc : List Nat)
    {pld : List Nat} {s1 : Nat} {rest : List Nat}
    (h : readFramesLoop seq wire acc = .ok (pld, s1, rest)) :
    rest.length < wire.length :=
  readFramesLoop_rest_lt_aux wire.length wire le_rfl seq acc pld s1 rest h

/-- A successful `read_packet` strictly shrinks the inbound stream. -/
theorem read_packet_in_stream_lt {c : MyConn} {pld : List Nat} {c1 : MyConn}
    (h : c.read_packet = (.ok pld, c1)) :
    c1.in_stream.length < c.in_stream.length := by
  unfold MyConn.read_packet at h
  split at h
  · cases h
  · rename_i pld' seq1 rest heq
    simp only [Prod.mk.injEq] at h
    obtain ⟨-, hc⟩ := h
    subst hc
    exact readFramesLoop_rest_lt _ _ _ heq

/-- A failed `read_packet` leaves the connection untouched. -/
theorem read_packet_error_conn {c : MyConn} {e : MyError} {c1 : MyConn}
    (h : c.read_packet = (.error e, c1)) : c1 = c := by
  unfold MyConn.read_packet at h
  split at h
  · simp only [Prod.mk.injEq] at h
    exact h.2.symm
  · cases h

/-- `QueryResult` (`src/conn.rs`): the streamed result set.  The
exclusive borrow of the connection is modelled by the connection being
a field. -/
structure QueryResult where
  conn : MyConn
  columns : List Column
  eof : Bool
  is_bin : Bool
deriving DecidableEq, Repr

/-- `QueryResult::next` (`src/conn.rs`): `None` immediately once `eof`
is set; otherwise read one packet and either recognise termination
(first byte `0xFE` — and `0xFF` in the text dialect — with payload
length `< 0xFE`), or decode the payload as a row of the corresponding
dialect.  Every error and every termination sets `eof`. -/
def QueryResult.next (qr : QueryResult) :
    Option (Except MyError (List Value)) × QueryResult :=
  if qr.eof then (none, qr)
  else
    match qr.conn.read_packet with
    | (.error err, _) => (some (.error err), { qr with eof := true })
    | (.ok pld, conn1) =>
      let qr1 := { qr with conn := conn1 }
      if qr.is_bin then
        if pld.getD 0 0 = 0xfe ∧ pld.length < 0xfe then
          match EOFPacket.from_payload pld with
          | .ok p => (none, { qr1 with eof := true, conn := conn1.handle_eof p })
          | .error e => (some (.error (.MyIoError e)), { qr1 with eof := true })
        else
          match Value.from_bin_payload pld qr.columns with
          | .ok vs => (some (.ok vs), qr1)
          | .error e => (some (.error (.MyIoError e)), { qr1 with eof := true })
      else
        if (pld.getD 0 0 = 0xfe ∨ pld.getD 0 0 = 0xff) ∧ pld.length < 0xfe then
          if pld.getD 0 0 = 0xfe then
            match EOFPacket.from_payload pld with
            | .ok p => (none, { qr1 with eof := true, conn := conn1.handle_eof p })
            | .error e => (some (.error (.MyIoError e)), { qr1 with eof := true })
          else
            match ErrPacket.from_payload pld with
            | .ok p => (some (.error (.MySqlError p)), { qr1 with eof := true })
            | .error e => (some (.error (.MyIoError e)), { qr1 with eof := true })
        else
          match Value.from_payload pld qr.columns.length with
          | .ok vs => (some (.ok vs), qr1)
          | .error e => (some (.error (.MyIoError e)), { qr1 with eof := true })

/-- Any `next` that yields an item (row or error) either consumed
inbound bytes or flipped `eof` from `false` to `true`; this is the
measure argument behind drain-on-drop termination. -/
theorem next_some_measure {qr : QueryResult} {r : Except MyError (List Value)}
    {qr1 : QueryResult} (h : qr.next = (some r, qr1)) :
    2 * qr1.conn.in_stream.length + (if qr1.eof then 0 else 1) <
      2 * qr.conn.in_stream.length + (if qr.eof then 0 else 1) := by
  unfold QueryResult.next at h
  split at h
  · cases h
  · rename_i heof
    simp only [Bool.not_eq_true] at heof
    split at h
    · rename_i e cdead heq
      have := read_packet_error_conn heq
      simp only [Prod.mk.injEq] at h
      obtain ⟨-, hq⟩ := h
      subst hq
      simp [heof]
    · rename_i pld conn1 heq
      have hlt := read_packet_in_stream_lt heq
      split at h <;> [skip; skip] <;> split at h <;>
        first
        | (split at h <;> [skip; skip] <;> split at h <;>
            (simp only [Prod.mk.injEq] at h
             obtain ⟨h1, hq⟩ := h
             cases h1 <;> (subst hq; simp [MyConn.handle_eof, heof]; omega)))
        | (split at h <;>
            (simp only [Prod.mk.injEq] at h
             obtain ⟨h1, hq⟩ := h
             cases h1 <;> (subst hq; simp [MyConn.handle_eof, heof]; omega)))

/-- `Drop for QueryResult` (`src/conn.rs`): `for _ in *self {}` — call
`next` until it yields `None`, discarding rows and errors. -/
def QueryResult.drain (qr : QueryResult) : QueryResult :=
  match h : qr.next with
  | (none, qr1) => qr1
  | (some _, qr1) => qr1.drain
termination_by 2 * qr.conn.in_stream.length + (if qr.eof then 0 else 1)
decreasing_by
  exact next_some_measure h

/-! ## Concrete fixtures used by witnesses and counterexamples -/

/-- A connected connection in its resting state, with the default
outbound limit (`max_allowed_packet = MAX_PAYLOAD_LEN`) and empty
transport buffers. -/
def conn0 : MyConn :=
  { affected_rows := 0, last_insert_id := 0,
    max_allowed_packet := MAX_PAYLOAD_LEN, capability_flags := 0,
    connection_id := 0, status_flags := 0, seq_id := 0,
    character_set := 0, last_command := 0, connected := true,
    in_stream := [], out_stream := [] }

/-- A prepared statement expecting two parameters. -/
def stmt2 : Stmt :=
  { params := some [defaultColumn, defaultColumn], columns := none,
    statement_id := 7, num_columns := 0, num_params := 2,
    warning_count := 0 }

/-! ## C9 — `handle_eof` frame effect -/

/-- C9: when a result set terminates on an EOF packet, `handle_eof`
assigns only `status_flags` from the packet; `affected_rows`,
`last_insert_id`, `seq_id`, `capability_flags`, `connection_id`,
`character_set`, `max_allowed_packet`, `last_command`, `connected` (and
the transport buffers) are unchanged. -/
theorem handle_eof_only_status_flags (c : MyConn) (e : EOFPacket) :
    (c.handle_eof e).status_flags = e.status_flags ∧
    (c.handle_eof e).affected_rows = c.affected_rows ∧
    (c.handle_eof e).last_insert_id = c.last_insert_id ∧
    (c.handle_eof e).seq_id = c.seq_id ∧
    (c.handle_eof e).capability_flags = c.capability_flags ∧
    (c.handle_eof e).connection_id = c.connection_id ∧
    (c.handle_eof e).character_set = c.character_set ∧
    (c.handle_eof e).max_allowed_packet = c.max_allowed_packet ∧
    (c.handle_eof e).last_command = c.last_command ∧
    (c.handle_eof e).connected = c.connected ∧
    (c.handle_eof e).in_stream = c.in_stream ∧
    (c.handle_eof e).out_stream = c.out_stream :=
  ⟨rfl, rfl, rfl, rfl, rfl, rfl, rfl, rfl, rfl, rfl, rfl, rfl⟩

/-! ## C7 — `execute` parameter arity check -/

/-- A prepared statement expecting no parameters. -/
def stmt0 : Stmt :=
  { params := none, columns := none, statement_id := 7, num_columns := 0,
    num_params := 0, warning_count := 0 }

/-- A parameter list of `2^16` values. -/
def params65536 : List Value := List.replicate 65536 Value.NULL

/-- C7 counterexample: the source checks
`stmt.num_params != params.len() as u16` — the length truncated to a
`u16` — so a 65536-element parameter list against `num_params = 0`
collides modulo `2^16`: although the supplied count differs from
`num_params`, `execute` does not return the parameter-count mismatch
error; it proceeds to write the `COM_STMT_EXECUTE` packet to the
transport (here failing only later, reading the response from an empty
inbound stream). -/
theorem execute_misses_mismatch_modulo_u16 :
    params65536.length ≠ stmt0.num_params ∧
    (conn0.execute stmt0 params65536).1 ≠
      .error (.MyStrError ("Statement takes " ++ toString stmt0.num_params ++
        " parameters but " ++ toString params65536.length ++ " was supplied")) ∧
    (conn0.execute stmt0 params65536).2.out_stream ≠ [] ∧
    (conn0.execute stmt0 params65536).2.last_command = COM_STMT_EXECUTE := by
  have hlen : params65536.length = 65536 := by
    simp only [params65536, List.length_replicate]
  have hcond : ¬(stmt0.num_params ≠ params65536.length % 65536) := by
    simp only [stmt0, hlen]
    decide
  have hexec : conn0.execute stmt0 params65536 =
      (.error (.MyIoError "end of file"),
       { conn0 with
         seq_id := 1
         last_command := COM_STMT_EXECUTE
         out_stream := [10, 0, 0, 0, 23, 7, 0, 0, 0, 0, 1, 0, 0, 0] }) := by
    unfold MyConn.execute
    rw [if_neg hcond]
    simp [stmt0, executeFinish, MyConn.write_command_data, MyConn.write_packet,
      writeFramesLoop, le3, leBytes, MAX_PAYLOAD_LEN, MyConn.read_packet,
      readFramesLoop, conn0, COM_STMT_EXECUTE]
  refine ⟨?_, ?_, ?_, ?_⟩
  · rw [hlen]
    simp [stmt0]
  · rw [hexec]
    simp
  · rw [hexec]
    simp
  · rw [hexec]

/-- C7 amended: `execute` returns the parameter-count mismatch error —
writing nothing and leaving the connection (sequence id, last command,
OK-derived fields and both transport buffers) exactly as passed in —
whenever `num_params` differs from the supplied parameter count
truncated to a `u16` (`params.len() as u16`, i.e. modulo `2^16`); a
count that differs from `num_params` by a multiple of `2^16` goes
undetected. -/
theorem execute_param_count_mismatch_truncated (c : MyConn) (stmt : Stmt)
    (params : List Value) (h : stmt.num_params ≠ params.length % 65536) :
    c.execute stmt params =
      (.error (.MyStrError ("Statement takes " ++ toString stmt.num_params ++
        " parameters but " ++ toString params.length ++ " was supplied")), c) := by
  unfold MyConn.execute
  rw [if_pos h]

/-- Witness for the amended C7 at a concrete mismatched call: a
two-parameter statement executed with an empty parameter list. -/
theorem execute_param_count_mismatch_truncated_witness :
    stmt2.num_params ≠ ([] : List Value).length % 65536 ∧
    conn0.execute stmt2 [] =
      (.error (.MyStrError ("Statement takes " ++ toString stmt2.num_params ++
        " parameters but " ++ toString ([] : List Value).length ++ " was supplied")), conn0) :=
  ⟨by decide, execute_param_count_mismatch_truncated conn0 stmt2 [] (by decide)⟩

/-! ## C8 — accessors on a non-matching variant -/

/-- C8 counterexample: `Value::get_int` on `NULL` does not return an
option-like result — it aborts the task (`fail!`) with this message. -/
theorem get_int_on_null_aborts :
    Value.get_int .NULL =
      .failed "Called `Value::get_int()` on non `Int` value" := rfl

/-- C8 amended: the `is_*` predicates and the `*_or` accessors are
total, but every plain variant accessor aborts the task exactly when
the value is of a non-matching variant. -/
theorem accessors_abort_on_mismatch (v : Value) :
    (v.bytes_ref.isFailed = !v.is_bytes) ∧
    (v.unwrap_bytes.isFailed = !v.is_bytes) ∧
    (v.get_int.isFailed = !v.is_int) ∧
    (v.get_uint.isFailed = !v.is_uint) ∧
    (v.get_float.isFailed = !v.is_float) ∧
    (v.get_year.isFailed = !v.is_date) ∧
    (v.get_month.isFailed = !v.is_date) ∧
    (v.get_day.isFailed = !v.is_date) ∧
    (v.is_neg.isFailed = !v.is_time) ∧
    (v.get_days.isFailed = !v.is_time) ∧
    (v.get_hour.isFailed = !(v.is_date || v.is_time)) ∧
    (v.get_min.isFailed = !(v.is_date || v.is_time)) ∧
    (v.get_sec.isFailed = !(v.is_date || v.is_time)) ∧
    (v.get_usec.isFailed = !(v.is_date || v.is_time)) ∧
    (∀ y, v.unwrap_bytes_or y = if v.is_bytes then v.unwrap_bytes_or y else y) ∧
    (∀ y, v.get_int_or y = if v.is_int then v.get_int_or y else y) ∧
    (∀ y, v.get_uint_or y = if v.is_uint then v.get_uint_or y else y) ∧
    (∀ y, v.get_float_or y = if v.is_float then v.get_float_or y else y) := by
  cases v with
  | Time neg d h mi s us =>
    cases neg <;>
      simp [Value.bytes_ref, Value.unwrap_bytes, Value.get_int, Value.get_uint,
        Value.get_float, Value.get_year, Value.get_month, Value.get_day,
        Value.is_neg, Value.get_days, Value.get_hour, Value.get_min,
        Value.get_sec, Value.get_usec, Value.is_bytes, Value.is_int,
        Value.is_uint, Value.is_float, Value.is_date, Value.is_time,
        Value.unwrap_bytes_or, Value.get_int_or, Value.get_uint_or,
        Value.get_float_or, FailOr.isFailed]
  | _ =>
    simp [Value.bytes_ref, Value.unwrap_bytes, Value.get_int, Value.get_uint,
      Value.get_float, Value.get_year, Value.get_month, Value.get_day,
      Value.is_neg, Value.get_days, Value.get_hour, Value.get_min,
      Value.get_sec, Value.get_usec, Value.is_bytes, Value.is_int,
      Value.is_uint, Value.is_float, Value.is_date, Value.is_time,
      Value.unwrap_bytes_or, Value.get_int_or, Value.get_uint_or,
      Value.get_float_or, FailOr.isFailed]

/-! ## C3 — text rendering of `Bytes` -/

/-- C3: on the valid-UTF-8 input `h'e'l'l'o` the source's
`s.replace("'", "\'")` is an identity replacement (the Rust literal
`"\'"` is the quote character itself), so the inner single quotes reach
the output unescaped: the result is `'h'e'l'l'o'`. -/
theorem into_str_quotes_not_escaped :
    Value.into_str (.Bytes [104, 39, 101, 39, 108, 39, 108, 39, 111]) =
      squo ++ "h" ++ squo ++ "e" ++ squo ++ "l" ++ squo ++ "l" ++ squo ++ "o" ++ squo := by
  decide

/-! ## C10 — terminated result sets read nothing further -/

/-- C10: once a `QueryResult` is terminated (`eof` set), every further
`next` returns `None` and leaves the whole state — the connection and
its transport streams included — untouched, and the drain performed on
drop likewise reads nothing. -/
theorem next_none_after_eof (qr : QueryResult) (h : qr.eof = true) :
    qr.next = (none, qr) ∧ qr.drain = qr := by
  have hn : qr.next = (none, qr) := by
    unfold QueryResult.next
    rw [if_pos h]
  exact ⟨hn, by rw [QueryResult.drain, hn]⟩

/-- A terminated text result set whose connection still has unread
bytes. -/
def qrEofSet : QueryResult :=
  { conn := { conn0 with in_stream := [5, 5, 5, 5, 5] }, columns := [],
    eof := true, is_bin := false }

/-- Witness for C10: on a concrete terminated result set with pending
inbound bytes, `next` yields `None` with nothing consumed and drain is
the identity. -/
theorem next_none_after_eof_witness :
    qrEofSet.eof = true ∧ (qrEofSet.next = (none, qrEofSet) ∧ qrEofSet.drain = qrEofSet) :=
  ⟨rfl, next_none_after_eof qrEofSet rfl⟩

/-! ## C6 — the packet read after a `LOCAL INFILE` stream -/

/-- A connection whose pending server response is an ERR packet
(sequence id 2, as expected after one data packet and the terminating
empty packet). -/
def connInfileErr : MyConn :=
  { conn0 with in_stream := [9, 0, 0, 2, 255, 1, 0, 35, 51, 68, 48, 48, 48] }

/-- C6 counterexample: after streaming the file, the one packet the
client reads back is an ERR payload (first byte `0xFF`), yet
`send_local_infile` still returns success — the non-OK packet is
discarded, not propagated. -/
theorem send_local_infile_swallows_err :
    readFramesLoop 2 connInfileErr.in_stream [] =
      .ok ([255, 1, 0, 35, 51, 68, 48, 48, 48], 3, []) ∧
    (connInfileErr.send_local_infile [[65, 66]]).1 = .ok () := by
  constructor
  · simp [connInfileErr, conn0, readFramesLoop, MAX_PAYLOAD_LEN]
  · simp [connInfileErr, conn0, MyConn.send_local_infile, sendFileChunks,
      MyConn.write_packet, writeFramesLoop, le3, MAX_PAYLOAD_LEN,
      MyConn.read_packet, readFramesLoop]

/-- C6 amended: after the chunks and the terminating empty packet went
out, `send_local_infile` reads exactly one packet; a first byte `0x00`
absorbs the OK packet via `handle_ok`, while any other packet is
discarded and the call returns success. -/
theorem send_local_infile_response (c : MyConn) (chunks : List (List Nat))
    (c1 c2 c3 : MyConn) (pld : List Nat)
    (h1 : sendFileChunks c chunks = (.ok (), c1))
    (h2 : c1.write_packet [] = (.ok (), c2))
    (h3 : c2.read_packet = (.ok pld, c3)) :
    (pld.getD 0 0 ≠ 0 → c.send_local_infile chunks = (.ok (), c3)) ∧
    (pld.getD 0 0 = 0 →
      c.send_local_infile chunks =
        match OkPacket.from_payload pld with
        | .ok op => (.ok (), c3.handle_ok op)
        | .error e => (.error (.MyIoError e), c3)) := by
  unfold MyConn.send_local_infile
  simp only [h1, h2, h3]
  constructor
  · intro hnz
    rw [if_neg hnz]
  · intro hz
    rw [if_pos hz]
    cases hok : OkPacket.from_payload pld <;> simp [hok]

/-- A connection whose pending server response is the OK packet of the
source's own OK-decode test. -/
def connInfileOk : MyConn :=
  { conn0 with in_stream := [8, 0, 0, 2, 0, 1, 2, 3, 0, 4, 0, 32] }

/-- The connection after the one file chunk went out. -/
def cInfOk1 : MyConn :=
  { connInfileOk with seq_id := 1, out_stream := [2, 0, 0, 0, 65, 66] }

/-- The connection after the terminating empty packet. -/
def cInfOk2 : MyConn :=
  { cInfOk1 with seq_id := 2, out_stream := cInfOk1.out_stream ++ [0, 0, 0, 1] }

/-- The connection after the response packet was read. -/
def cInfOk3 : MyConn := { cInfOk2 with seq_id := 3, in_stream := [] }

/-- Witness for C6 at a concrete run: one chunk, the empty packet, and
an OK response that is absorbed. -/
theorem send_local_infile_response_witness :
    sendFileChunks connInfileOk [[65, 66]] = (.ok (), cInfOk1) ∧
    cInfOk1.write_packet [] = (.ok (), cInfOk2) ∧
    cInfOk2.read_packet = (.ok [0, 1, 2, 3, 0, 4, 0, 32], cInfOk3) ∧
    (([0, 1, 2, 3, 0, 4, 0, 32].getD 0 0 ≠ 0 →
        connInfileOk.send_local_infile [[65, 66]] = (.ok (), cInfOk3)) ∧
     ([0, 1, 2, 3, 0, 4, 0, 32].getD 0 0 = 0 →
        connInfileOk.send_local_infile [[65, 66]] =
          match OkPacket.from_payload [0, 1, 2, 3, 0, 4, 0, 32] with
          | .ok op => (.ok (), cInfOk3.handle_ok op)
          | .error e => (.error (.MyIoError e), cInfOk3))) := by
  have h1 : sendFileChunks connInfileOk [[65, 66]] = (.ok (), cInfOk1) := by
    simp [connInfileOk, conn0, cInfOk1, sendFileChunks, MyConn.write_packet,
      writeFramesLoop, le3, MAX_PAYLOAD_LEN]
  have h2 : cInfOk1.write_packet [] = (.ok (), cInfOk2) := by
    simp [connInfileOk, conn0, cInfOk1, cInfOk2, MyConn.write_packet,
      writeFramesLoop, le3, MAX_PAYLOAD_LEN]
  have h3 : cInfOk2.read_packet = (.ok [0, 1, 2, 3, 0, 4, 0, 32], cInfOk3) := by
    simp [connInfileOk, conn0, cInfOk1, cInfOk2, cInfOk3, MyConn.read_packet,
      readFramesLoop, MAX_PAYLOAD_LEN]
  exact ⟨h1, h2, h3, send_local_infile_response connInfileOk [[65, 66]]
    cInfOk1 cInfOk2 cInfOk3 [0, 1, 2, 3, 0, 4, 0, 32] h1 h2 h3⟩

/-! ## C4 — the `write_packet` size check -/

/-- A payload two bytes longer than `MAX_PAYLOAD_LEN`. -/
def bigPayload : List Nat := List.replicate (MAX_PAYLOAD_LEN + 2) 0

/-- A connection whose learned `max_allowed_packet` lies strictly above
`MAX_PAYLOAD_LEN` (as a 1 GiB server limit would). -/
def connOverMax : MyConn := { conn0 with max_allowed_packet := MAX_PAYLOAD_LEN + 1 }

/-- C4 counterexample: with `max_allowed_packet = MAX_PAYLOAD_LEN + 1`,
a payload that exceeds it is *not* rejected, although it is larger than
the learned limit and the limit differs from `MAX_PAYLOAD_LEN` — the
source compares with `<`, not with inequality. -/
theorem write_packet_not_rejected_above_max :
    (bigPayload.length > connOverMax.max_allowed_packet ∧
      connOverMax.max_allowed_packet ≠ MAX_PAYLOAD_LEN) ∧
    (connOverMax.write_packet bigPayload).1 = .ok () := by
  have hlen : bigPayload.length = MAX_PAYLOAD_LEN + 2 := by
    simp [bigPayload]
  have hmap : connOverMax.max_allowed_packet = MAX_PAYLOAD_LEN + 1 := rfl
  refine ⟨⟨?_, ?_⟩, ?_⟩
  · rw [hlen, hmap]
    omega
  · rw [hmap]
    omega
  · have hcond : ¬(bigPayload.length > connOverMax.max_allowed_packet ∧
        connOverMax.max_allowed_packet < MAX_PAYLOAD_LEN) := by
      rw [hmap]
      rintro ⟨-, habs⟩
      omega
    unfold MyConn.write_packet
    rw [if_neg hcond]

/-- C4 amended: `write_packet` rejects with the packet-too-large error
exactly when the payload exceeds the learned `max_allowed_packet` *and*
that limit is strictly below `MAX_PAYLOAD_LEN`. -/
theorem write_packet_reject_iff (c : MyConn) (data : List Nat) :
    (c.write_packet data).1 = .error (.MyStrError "Packet too large") ↔
      data.length > c.max_allowed_packet ∧ c.max_allowed_packet < MAX_PAYLOAD_LEN := by
  unfold MyConn.write_packet
  split
  · rename_i hc
    simpa using hc
  · rename_i hc
    exact iff_of_false (by simp) hc

/-! ## C1 — the result-set termination threshold -/

/-- A live text result set whose next packet is a 9-byte payload whose
first byte is `0xFE`. -/
def qrTextFe9 : QueryResult :=
  { conn := { conn0 with in_stream := [9, 0, 0, 0, 0xfe, 1, 0, 2, 0, 9, 9, 9, 9] },
    columns := [], eof := false, is_bin := false }

/-- C1 counterexample: the pending packet has payload
`[0xFE, 1, 0, 2, 0, 9, 9, 9, 9]` — first byte `0xFE` and length 9, so
by the claim it should be decoded as an ordinary row; `next` instead
terminates the set (`None`, `eof` set): the source's threshold is
`< 0xFE`, not `< 9`. -/
theorem next_terminates_at_payload_length_9 :
    readFramesLoop qrTextFe9.conn.seq_id qrTextFe9.conn.in_stream [] =
      .ok ([0xfe, 1, 0, 2, 0, 9, 9, 9, 9], 1, []) ∧
    qrTextFe9.next.1 = none ∧ qrTextFe9.next.2.eof = true := by
  refine ⟨?_, ?_, ?_⟩
  · simp [qrTextFe9, conn0, readFramesLoop, MAX_PAYLOAD_LEN]
  all_goals
    simp [qrTextFe9, QueryResult.next, MyConn.read_packet, readFramesLoop,
      MAX_PAYLOAD_LEN, conn0, EOFPacket.from_payload, skipBytes, readLeU16,
      readLeUintN, readExact, leValue, MyConn.handle_eof, Except.bind, bind,
      Except.pure, pure]

/-- C1 amended: for a packet `pld` read by `next` on a live result set,
termination is recognised exactly when the first byte is `0xFE` (binary
dialect) or `0xFE`/`0xFF` (text dialect) *and* the payload length is
below `0xFE`; any other packet — a long one with first byte `0xFE`/
`0xFF` included — is decoded as an ordinary row of the corresponding
dialect. -/
theorem next_termination_threshold (qr : QueryResult) (pld : List Nat) (conn1 : MyConn)
    (he : qr.eof = false) (hr : qr.conn.read_packet = (.ok pld, conn1)) :
    (qr.is_bin = true →
      ((pld.getD 0 0 = 0xfe ∧ pld.length < 0xfe →
        qr.next =
          match EOFPacket.from_payload pld with
          | .ok p => (none, { qr with eof := true, conn := conn1.handle_eof p })
          | .error e => (some (.error (.MyIoError e)), { qr with conn := conn1, eof := true })) ∧
       (¬(pld.getD 0 0 = 0xfe ∧ pld.length < 0xfe) →
        qr.next =
          match Value.from_bin_payload pld qr.columns with
          | .ok vs => (some (.ok vs), { qr with conn := conn1 })
          | .error e => (some (.error (.MyIoError e)), { qr with conn := conn1, eof := true })))) ∧
    (qr.is_bin = false →
      (((pld.getD 0 0 = 0xfe ∨ pld.getD 0 0 = 0xff) ∧ pld.length < 0xfe →
        qr.next =
          if pld.getD 0 0 = 0xfe then
            match EOFPacket.from_payload pld with
            | .ok p => (none, { qr with eof := true, conn := conn1.handle_eof p })
            | .error e => (some (.error (.MyIoError e)), { qr with conn := conn1, eof := true })
          else
            match ErrPacket.from_payload pld with
            | .ok p => (some (.error (.MySqlError p)), { qr with conn := conn1, eof := true })
            | .error e => (some (.error (.MyIoError e)), { qr with conn := conn1, eof := true })) ∧
       (¬((pld.getD 0 0 = 0xfe ∨ pld.getD 0 0 = 0xff) ∧ pld.length < 0xfe) →
        qr.next =
          match Value.from_payload pld qr.columns.length with
          | .ok vs => (some (.ok vs), { qr with conn := conn1 })
          | .error e => (some (.error (.MyIoError e)), { qr with conn := conn1, eof := true })))) := by
  have hbase : qr.next =
      (if qr.is_bin then
        if pld.getD 0 0 = 0xfe ∧ pld.length < 0xfe then
          match EOFPacket.from_payload pld with
          | .ok p => (none, { qr with eof := true, conn := conn1.handle_eof p })
          | .error e => (some (.error (.MyIoError e)), { qr with conn := conn1, eof := true })
        else
          match Value.from_bin_payload pld qr.columns with
          | .ok vs => (some (.ok vs), { qr with conn := conn1 })
          | .error e => (some (.error (.MyIoError e)), { qr with conn := conn1, eof := true })
      else
        if (pld.getD 0 0 = 0xfe ∨ pld.getD 0 0 = 0xff) ∧ pld.length < 0xfe then
          if pld.getD 0 0 = 0xfe then
            match EOFPacket.from_payload pld with
            | .ok p => (none, { qr with eof := true, conn := conn1.handle_eof p })
            | .error e => (some (.error (.MyIoError e)), { qr with conn := conn1, eof := true })
          else
            match ErrPacket.from_payload pld with
            | .ok p => (some (.error (.MySqlError p)), { qr with conn := conn1, eof := true })
            | .error e => (some (.error (.MyIoError e)), { qr with conn := conn1, eof := true })
        else
          match Value.from_payload pld qr.columns.length with
          | .ok vs => (some (.ok vs), { qr with conn := conn1 })
          | .error e => (some (.error (.MyIoError e)), { qr with conn := conn1, eof := true })) := by
    unfold QueryResult.next
    rw [he]
    simp only [Bool.false_eq_true, if_false, hr]
  constructor
  · intro hbin
    rw [hbin] at hbase
    simp only [if_true, ite_true] at hbase
    constructor
    · intro hcond
      rw [hbase, if_pos hcond, hbin]
    · intro hcond
      rw [hbase, if_neg hcond, he, hbin]
  · intro hbin
    rw [hbin] at hbase
    simp only [Bool.false_eq_true, if_false, ite_false] at hbase
    constructor
    · intro hcond
      rw [hbase, if_pos hcond, hbin]
    · intro hcond
      rw [hbase, if_neg hcond, he, hbin]

/-- A live text result set whose next packet is the one-column row
`"A"` (length-encoded string `[1, 65]`). -/
def qrRowText : QueryResult :=
  { conn := { conn0 with in_stream := [2, 0, 0, 0, 1, 65] }, columns := [],
    eof := false, is_bin := false }

/-- The connection of `qrRowText` after its row packet was read. -/
def connRowText1 : MyConn := { conn0 with seq_id := 1, in_stream := [] }

/-- Witness for the amended C1 at a concrete text-dialect run: the row
packet `[1, 65]` does not meet the termination condition and is decoded
as a row. -/
theorem next_termination_threshold_witness :
    qrRowText.eof = false ∧
    qrRowText.conn.read_packet = (.ok [1, 65], connRowText1) ∧
    qrRowText.next = (some (.ok [.Bytes [65]]), { qrRowText with conn := connRowText1 }) := by
  have hr : qrRowText.conn.read_packet = (.ok [1, 65], connRowText1) := by
    simp [qrRowText, connRowText1, conn0, MyConn.read_packet, readFramesLoop,
      MAX_PAYLOAD_LEN]
  refine ⟨rfl, hr, ?_⟩
  have h := ((next_termination_threshold qrRowText [1, 65] connRowText1 rfl hr).2
    rfl).2 (by decide)
  rw [h]
  have hv : Value.from_payload [1, 65] qrRowText.columns.length = .ok [.Bytes [65]] := by
    simp [Value.from_payload, fromPayloadLoop, readLenencBytes, readLenencInt,
      readU8, readExact, readLeUintN, leValue]
  rw [hv]

/-! ## C5 — long-data eligibility -/

/-- Two prepared-parameter columns. -/
def psTwo : List Column := [defaultColumn, defaultColumn]

/-- A `Bytes` parameter whose encoding fills the capacity almost
exactly, followed by an `Int`. -/
def vsBytesInt : List Value := [.Bytes (List.replicate 91 65), .Int 5]

/-- C5 counterexample: with `max_allowed_packet = 117` (capacity
`117 - 1 - 16 = 100`), the 92-byte encoding of the `Bytes` parameter
fits, but the 8-byte `Int` encoding no longer satisfies
`val.len() < cap - written` — the non-`Bytes` parameter at index 1 is
withheld from the value block and queued for `send_long_data`. -/
theorem to_bin_payload_withholds_non_bytes :
    Value.to_bin_payload psTwo vsBytesInt 117 =
      .ok ([0], 91 :: List.replicate 91 65, some [1]) ∧
    vsBytesInt.getD 1 .NULL = .Int 5 := by
  constructor
  · rfl
  · rfl

/-- C5 amended: `COM_STMT_SEND_LONG_DATA` transfers happen only for
`Bytes` parameters — `send_long_data` behaves identically when every id
whose parameter is not `Bytes` is removed from its id list (such ids
are skipped without writing anything, so a withheld non-`Bytes`
parameter is silently dropped). -/
theorem send_long_data_only_bytes (c : MyConn) (stmt : Stmt) (params : List Value)
    (ids : List Nat) :
    c.send_long_data stmt params ids =
      c.send_long_data stmt params
        (ids.filter fun id => (params.getD id .NULL).is_bytes) := by
  unfold MyConn.send_long_data
  induction ids generalizing c with
  | nil => rfl
  | cons id ids ih =>
    rw [List.filter_cons]
    cases hv : params.getD id .NULL with
    | Bytes x =>
      simp only [hv, Value.is_bytes, if_true, ite_true, sendLongDataLoop]
      cases hs : sendChunksLoop c (longDataChunks stmt.statement_id id c.max_allowed_packet x) with
      | mk r c1 =>
        cases r with
        | error e => rfl
        | ok u => cases u; exact ih c1
    | NULL =>
      simp only [hv, Value.is_bytes, Bool.false_eq_true, if_false, ite_false,
        sendLongDataLoop]
      exact ih c
    | Int x =>
      simp only [hv, Value.is_bytes, Bool.false_eq_true, if_false, ite_false,
        sendLongDataLoop]
      exact ih c
    | UInt x =>
      simp only [hv, Value.is_bytes, Bool.false_eq_true, if_false, ite_false,
        sendLongDataLoop]
      exact ih c
    | Float x =>
      simp only [hv, Value.is_bytes, Bool.false_eq_true, if_false, ite_false,
        sendLongDataLoop]
      exact ih c
    | Date y mo d h mi s us =>
      simp only [hv, Value.is_bytes, Bool.false_eq_true, if_false, ite_false,
        sendLongDataLoop]
      exact ih c
    | Time neg d h mi s us =>
      simp only [hv, Value.is_bytes, Bool.false_eq_true, if_false, ite_false,
        sendLongDataLoop]
      exact ih c

/-! ## C2 — framer round trip -/

/-- Decoding the three header bytes written by `le3` recovers the
length, for lengths below `2^24`. -/
theorem le3_value (n : Nat) (h : n < 2 ^ 24) :
    n % 256 % 256 + 256 * (n / 256 % 256 % 256) + 65536 * (n / 65536 % 256 % 256) = n := by
  omega

/-- Reading back the frames produced by the write loop (from any
starting sequence id, against any stream continuation, into any
accumulator) yields exactly the written payload, the writer's final
sequence id, and the untouched continuation. -/
theorem readFrames_writeFrames_aux (k : Nat) :
    ∀ (data : List Nat), data.length ≤ k → ∀ (seq : Nat) (acc tail : List Nat),
      readFramesLoop seq ((writeFramesLoop seq data).1 ++ tail) acc =
        .ok (acc ++ data, (writeFramesLoop seq data).2, tail) := by
  induction k with
  | zero =>
    intro data hd seq acc tail
    have hnil : data = [] := List.length_eq_zero.mp (Nat.le_zero.mp hd)
    subst hnil
    simp [writeFramesLoop, readFramesLoop, le3, MAX_PAYLOAD_LEN]
  | succ k ih =>
    intro data hd seq acc tail
    by_cases hlt : data.length < MAX_PAYLOAD_LEN
    · rw [writeFramesLoop, if_pos hlt]
      have h24 : data.length < 2 ^ 24 := by
        have hM : MAX_PAYLOAD_LEN = 2 ^ 24 - 1 := rfl
        omega
      simp only [le3, List.cons_append, List.nil_append, List.append_assoc]
      simp only [readFramesLoop]
      rw [le3_value data.length h24]
      rw [if_neg (by simp)]
      rw [if_neg (by omega)]
      by_cases hz : data.length = 0
      · have hnil : data = [] := List.length_eq_zero.mp hz
        subst hnil
        simp
      · rw [if_neg hz]
        rw [if_neg (by simp)]
        rw [List.take_left, List.drop_left]
    · push_neg at hlt
      rw [writeFramesLoop, if_neg (by omega)]
      have hfMAX : MAX_PAYLOAD_LEN < 2 ^ 24 := by norm_num [MAX_PAYLOAD_LEN]
      simp only [le3, List.cons_append, List.nil_append, List.append_assoc]
      simp only [readFramesLoop]
      rw [le3_value MAX_PAYLOAD_LEN hfMAX]
      rw [if_neg (by simp)]
      rw [if_pos (le_refl MAX_PAYLOAD_LEN)]
      have htk : (data.take MAX_PAYLOAD_LEN).length = MAX_PAYLOAD_LEN :=
        (List.length_take _ _).trans (min_eq_left hlt)
      rw [if_neg (by simp [htk])]
      rw [List.take_left' htk, List.drop_left' htk]
      have hdk : (data.drop MAX_PAYLOAD_LEN).length ≤ k := by
        have hM : 0 < MAX_PAYLOAD_LEN := by norm_num [MAX_PAYLOAD_LEN]
        simp only [List.length_drop]
        omega
      rw [ih (data.drop MAX_PAYLOAD_LEN) hdk ((seq + 1) % 256) (acc ++ data.take MAX_PAYLOAD_LEN) tail]
      rw [List.append_assoc, List.take_append_drop]

/-- A payload whose length is an exact multiple of `MAX_PAYLOAD_LEN`
(the empty payload included) is written with a trailing zero-length
frame. -/
theorem writeFrames_trailing_aux (k : Nat) :
    ∀ (data : List Nat), data.length ≤ k → data.length % MAX_PAYLOAD_LEN = 0 →
      ∀ seq : Nat, ∃ pre s, (writeFramesLoop seq data).1 = pre ++ [0, 0, 0, s] := by
  induction k with
  | zero =>
    intro data hd _ seq
    have hnil : data = [] := List.length_eq_zero.mp (Nat.le_zero.mp hd)
    subst hnil
    exact ⟨[], seq, by simp [writeFramesLoop, le3, MAX_PAYLOAD_LEN]⟩
  | succ k ih =>
    intro data hd hmod seq
    by_cases hlt : data.length < MAX_PAYLOAD_LEN
    · have hz : data.length = 0 := by
        have hq := Nat.mod_eq_of_lt hlt
        omega
      have hnil : data = [] := List.length_eq_zero.mp hz
      subst hnil
      exact ⟨[], seq, by simp [writeFramesLoop, le3, MAX_PAYLOAD_LEN]⟩
    · push_neg at hlt
      have hM : 0 < MAX_PAYLOAD_LEN := by norm_num [MAX_PAYLOAD_LEN]
      have hmod2 : (data.drop MAX_PAYLOAD_LEN).length % MAX_PAYLOAD_LEN = 0 := by
        simp only [List.length_drop]
        rw [← Nat.mod_eq_sub_mod hlt]
        exact hmod
      have hdk : (data.drop MAX_PAYLOAD_LEN).length ≤ k := by
        simp only [List.length_drop]
        omega
      obtain ⟨pre, s, hws⟩ := ih _ hdk hmod2 ((seq + 1) % 256)
      refine ⟨le3 MAX_PAYLOAD_LEN ++ [seq] ++ data.take MAX_PAYLOAD_LEN ++ pre, s, ?_⟩
      rw [writeFramesLoop, if_neg (by omega)]
      simp only [hws, List.append_assoc]

/-- The payload lengths named by the round-trip property. -/
def roundLens : List Nat :=
  [0, 1, MAX_PAYLOAD_LEN - 1, MAX_PAYLOAD_LEN, MAX_PAYLOAD_LEN + 1, 2 * MAX_PAYLOAD_LEN]

/-- C2: for a payload of any of the lengths
`0, 1, MAX_PAYLOAD_LEN − 1, MAX_PAYLOAD_LEN, MAX_PAYLOAD_LEN + 1,
2·MAX_PAYLOAD_LEN`, writing it with `write_packet` (at the default
outbound limit) succeeds and reading the produced frames back with
`read_packet` from the same initial sequence id returns exactly the
original payload, consuming the whole stream (the trailing zero-length
frame included); when the length is an exact multiple of
`MAX_PAYLOAD_LEN`, the produced frames end in a zero-length frame. -/
theorem framer_roundtrip (c : MyConn) (data : List Nat)
    (hmap : c.max_allowed_packet = MAX_PAYLOAD_LEN)
    (hout : c.out_stream = [])
    (hlen : data.length ∈ roundLens) :
    (c.write_packet data).1 = .ok () ∧
    MyConn.read_packet
        { (c.write_packet data).2 with
            seq_id := c.seq_id, in_stream := (c.write_packet data).2.out_stream } =
      (.ok data, { (c.write_packet data).2 with in_stream := [] }) ∧
    (data.length % MAX_PAYLOAD_LEN = 0 →
      ∃ pre s, (c.write_packet data).2.out_stream = pre ++ [0, 0, 0, s]) := by
  have hcond : ¬(data.length > c.max_allowed_packet ∧
      c.max_allowed_packet < MAX_PAYLOAD_LEN) := by
    rw [hmap]
    rintro ⟨-, habs⟩
    exact absurd habs (lt_irrefl _)
  have hw : c.write_packet data =
      (.ok (), { c with seq_id := (writeFramesLoop c.seq_id data).2,
                        out_stream := c.out_stream ++ (writeFramesLoop c.seq_id data).1 }) := by
    unfold MyConn.write_packet
    rw [if_neg hcond]
  have hrt := readFrames_writeFrames_aux data.length data le_rfl c.seq_id [] []
  rw [List.append_nil, List.nil_append] at hrt
  refine ⟨by rw [hw], ?_, ?_⟩
  · rw [hw]
    unfold MyConn.read_packet
    simp only [hout, List.nil_append, hrt]
  · intro hmod
    rw [hw]
    simp only [hout, List.nil_append]
    exact writeFrames_trailing_aux data.length data le_rfl hmod c.seq_id

/-- A payload of exactly `MAX_PAYLOAD_LEN` zero bytes. -/
def dataMax : List Nat := List.replicate MAX_PAYLOAD_LEN 0

/-- Witness for C2 at the boundary length `MAX_PAYLOAD_LEN` (a payload
that needs one maximal frame plus the trailing zero-length frame). -/
theorem framer_roundtrip_witness :
    conn0.max_allowed_packet = MAX_PAYLOAD_LEN ∧
    conn0.out_stream = [] ∧
    dataMax.length ∈ roundLens ∧
    ((conn0.write_packet dataMax).1 = .ok () ∧
     MyConn.read_packet
         { (conn0.write_packet dataMax).2 with
             seq_id := conn0.seq_id, in_stream := (conn0.write_packet dataMax).2.out_stream } =
       (.ok dataMax, { (conn0.write_packet dataMax).2 with in_stream := [] }) ∧
     (dataMax.length % MAX_PAYLOAD_LEN = 0 →
       ∃ pre s, (conn0.write_packet dataMax).2.out_stream = pre ++ [0, 0, 0, s])) :=
  ⟨rfl, rfl, by simp [dataMax, roundLens],
   framer_roundtrip conn0 dataMax rfl rfl (by simp [dataMax, roundLens])⟩

end MySqlSimple
